import Mathlib

/-
Verification of the smart-bookmark application's core logic.

The definitions below are shallow embeddings of the TypeScript source:
  - src/components/Dashboard.tsx   (client collection, sync strategies,
    realtime event handler, mutation handlers, hashtag extraction,
    search/hashtag filtering)
  - src/app/api/bookmarks/route.ts (CRUD gateway: GET/POST/PATCH/DELETE)
  - src/components/Header.tsx      (live-window mirror toggle)

Pure functions become Lean functions; stateful handlers become explicit
state-passing functions; asynchronous effects (toasts, broadcasts, list
refetches) become explicit effect traces.
-/

namespace SmartBookmark

/-- A bookmark record, as in the Bookmark type of Dashboard.tsx
(id, url, title, description, created_at, user_id). Timestamps are kept
as opaque strings, exactly as the client handles them. -/
structure Bookmark where
  id : String
  url : String
  title : String
  description : Option String
  created_at : String
  user_id : String
deriving DecidableEq, Repr

/-- The three sync strategies (type SyncMode = "normal" | "time" | "webhook"). -/
inductive SyncMode where
  | normal
  | time
  | webhook
deriving DecidableEq, Repr

/-! ### Push-subscription (webhook) realtime event handler

Embedding of the postgres_changes callback in Dashboard.tsx
(lines 298-333): INSERT prepends unless the id is already present,
UPDATE replaces the entry with the matching id in place, DELETE removes
the entry with the matching id. -/

/-- A row-level event delivered by the change feed. -/
inductive RealtimeEvent where
  | insert (b : Bookmark)
  | update (b : Bookmark)
  | delete (id : String)
deriving DecidableEq, Repr

/-- One step of the postgres_changes handler: how a single INSERT /
UPDATE / DELETE payload transforms the client collection. -/
def applyRealtimeEvent (e : RealtimeEvent) (prev : List Bookmark) : List Bookmark :=
  match e with
  | .insert nb => if prev.any (fun b => b.id = nb.id) then prev else nb :: prev
  | .update ub => prev.map (fun b => if b.id = ub.id then ub else b)
  | .delete i => prev.filter (fun b => b.id ≠ i)

/-- A whole sequence of realtime events applied in delivery order. -/
def applyRealtimeEvents (es : List RealtimeEvent) (s : List Bookmark) : List Bookmark :=
  es.foldl (fun acc e => applyRealtimeEvent e acc) s

/-- The ids currently held in the client collection. -/
def collectionIds (s : List Bookmark) : List String :=
  s.map (fun b => b.id)

theorem collectionIds_applyRealtimeEvent_nodup (e : RealtimeEvent) (s : List Bookmark)
    (h : (collectionIds s).Nodup) : (collectionIds (applyRealtimeEvent e s)).Nodup := by
  cases e with
  | insert nb =>
    simp only [applyRealtimeEvent]
    by_cases hmem : s.any (fun b => b.id = nb.id)
    · simpa [hmem] using h
    · simp only [hmem, if_neg]
      simp only [List.any_eq_true, decide_eq_true_eq, not_exists, not_and] at hmem
      refine List.Nodup.cons ?_ h
      simp only [collectionIds, List.mem_map, not_exists, not_and]
      intro b hb hid
      exact hmem b hb hid
  | update ub =>
    have hids : collectionIds (applyRealtimeEvent (.update ub) s) = collectionIds s := by
      simp only [applyRealtimeEvent, collectionIds, List.map_map]
      refine List.map_congr_left ?_
      intro b _
      by_cases hb : b.id = ub.id
      · simp [Function.comp, hb]
      · simp [Function.comp, hb]
    rw [hids]; exact h
  | delete i =>
    have hsub : List.Sublist (collectionIds (applyRealtimeEvent (.delete i) s)) (collectionIds s) := by
      simp only [applyRealtimeEvent, collectionIds]
      exact (List.filter_sublist s).map _
    exact h.sublist hsub

theorem collectionIds_applyRealtimeEvents_nodup (es : List RealtimeEvent) (s : List Bookmark)
    (h : (collectionIds s).Nodup) : (collectionIds (applyRealtimeEvents es s)).Nodup := by
  induction es generalizing s with
  | nil => exact h
  | cons e es ih =>
    simp only [applyRealtimeEvents, List.foldl_cons]
    exact ih _ (collectionIds_applyRealtimeEvent_nodup e s h)

theorem applyRealtimeEvent_idem (e : RealtimeEvent) (s : List Bookmark) :
    applyRealtimeEvent e (applyRealtimeEvent e s) = applyRealtimeEvent e s := by
  cases e with
  | insert nb =>
    simp only [applyRealtimeEvent]
    by_cases hmem : s.any (fun b => b.id = nb.id)
    · simp [hmem]
    · simp [hmem]
  | update ub =>
    simp only [applyRealtimeEvent, List.map_map]
    refine List.map_congr_left ?_
    intro b _
    by_cases hb : b.id = ub.id
    · simp [Function.comp, hb]
    · simp [Function.comp, hb]
  | delete i =>
    simp only [applyRealtimeEvent]
    rw [List.filter_filter]
    refine List.filter_congr ?_
    intro b _
    by_cases hb : b.id = i
    · simp [hb]
    · simp [hb]

theorem applyRealtimeEvent_update_eq (ub : Bookmark) (s : List Bookmark) :
    ∀ b ∈ applyRealtimeEvent (.update ub) s, b.id = ub.id → b = ub := by
  intro b hb hid
  simp only [applyRealtimeEvent, List.mem_map] at hb
  obtain ⟨a, _, ha⟩ := hb
  by_cases h : a.id = ub.id
  · simpa [h] using ha.symm
  · exfalso; rw [if_neg h] at ha; exact h (ha ▸ hid)

theorem applyRealtimeEvent_delete_not_mem (i : String) (s : List Bookmark) :
    ∀ b ∈ applyRealtimeEvent (.delete i) s, b.id ≠ i := by
  intro b hb
  simp only [applyRealtimeEvent, List.mem_filter, decide_eq_true_eq] at hb
  exact hb.2

/-! ### Hashtag extraction

Embedding of extractHashtags in Dashboard.tsx (lines 71-76):
text.match of the global pattern "#" followed by one or more word
characters, deduplicated through a Set (which in JS preserves first
occurrence order). -/

/-- A JS word character for the \w character class: ASCII letter, digit or
underscore. Lean's Char.isAlpha and Char.isDigit are ASCII-only, matching
the JS class. -/
def isWordChar (c : Char) : Bool := c.isAlphanum || c = '_'

/-- Left-to-right global matching of the hashtag pattern, structurally
recursive on a fuel that bounds the number of characters still to scan
(each step consumes at least one character, so a fuel equal to the input
length is always sufficient). -/
def scanHashtagsAux : Nat → List Char → List String
  | 0, _ => []
  | _, [] => []
  | fuel + 1, c :: rest =>
    if c = '#' ∧ rest.takeWhile isWordChar ≠ [] then
      String.mk ('#' :: rest.takeWhile isWordChar) :: scanHashtagsAux fuel (rest.dropWhile isWordChar)
    else
      scanHashtagsAux fuel rest

/-- At each '#' followed by at least one word character, take the maximal
run of word characters as a match and resume after it; otherwise advance
one character. This is exactly how the JS global regex produces its match
list. -/
def scanHashtags (cs : List Char) : List String := scanHashtagsAux cs.length cs

/-- Deduplication keeping the first occurrence of each element, as the
JS Set constructor does when spread back into an array. -/
def firstDedupAux (seen : List String) : List String → List String
  | [] => []
  | x :: xs => if x ∈ seen then firstDedupAux seen xs else x :: firstDedupAux (x :: seen) xs

def firstDedup (l : List String) : List String := firstDedupAux [] l

/-- Embedding of extractHashtags: empty input short-circuits to the empty
list; otherwise the global matches of the hashtag pattern, deduplicated
preserving first-occurrence order. -/
def extractHashtags (text : String) : List String :=
  if text = "" then [] else firstDedup (scanHashtags text.data)

theorem firstDedupAux_sublist (seen : List String) (l : List String) :
    List.Sublist (firstDedupAux seen l) l := by
  induction l generalizing seen with
  | nil => simp [firstDedupAux]
  | cons x xs ih =>
    simp only [firstDedupAux]
    by_cases hx : x ∈ seen
    · rw [if_pos hx]
      exact (ih seen).trans (List.sublist_cons_self x xs)
    · rw [if_neg hx]
      exact (ih (x :: seen)).cons₂ x

theorem firstDedupAux_nodup (seen : List String) (l : List String) :
    (firstDedupAux seen l).Nodup ∧ ∀ x ∈ firstDedupAux seen l, x ∉ seen := by
  induction l generalizing seen with
  | nil => simp [firstDedupAux]
  | cons x xs ih =>
    simp only [firstDedupAux]
    by_cases hx : x ∈ seen
    · rw [if_pos hx]
      exact ih seen
    · rw [if_neg hx]
      obtain ⟨hnd, hout⟩ := ih (x :: seen)
      refine ⟨List.Nodup.cons ?_ hnd, ?_⟩
      · intro hmem
        exact hout x hmem (List.mem_cons_self x seen)
      · intro y hy
        rcases List.mem_cons.mp hy with rfl | hy'
        · exact hx
        · intro hseen
          exact hout y hy' (List.mem_cons_of_mem x hseen)

theorem firstDedup_nodup (l : List String) : (firstDedup l).Nodup :=
  (firstDedupAux_nodup [] l).1

theorem firstDedup_sublist (l : List String) : List.Sublist (firstDedup l) l :=
  firstDedupAux_sublist [] l

theorem extractHashtags_nodup (text : String) : (extractHashtags text).Nodup := by
  unfold extractHashtags
  by_cases h : text = ""
  · simp [h]
  · rw [if_neg h]
    exact firstDedup_nodup _

theorem extractHashtags_sublist_matches (text : String) :
    List.Sublist (extractHashtags text) (scanHashtags text.data) := by
  unfold extractHashtags
  by_cases h : text = ""
  · simp [h]
  · rw [if_neg h]
    exact firstDedup_sublist _

/-! ### Search and hashtag filtering

Embedding of filteredBookmarks in Dashboard.tsx (lines 90-111): filter by
a case-insensitive substring match of the query against title, url and
description, then filter by membership of the selected hashtag among the
description's extracted hashtags. -/

/-- The JS String.prototype.trim call, stripping leading and trailing
whitespace, computed directly on the character list so that it reduces in
the kernel. -/
def jsTrim (s : String) : String :=
  String.mk ((s.data.dropWhile Char.isWhitespace).reverse.dropWhile Char.isWhitespace).reverse

/-- The JS String.prototype.includes check: the needle occurs as a
contiguous substring. -/
def strIncludes (s needle : String) : Bool := decide (needle.data <:+: s.data)

/-- Whether one bookmark survives the search-query filter. -/
def matchesQuery (query : String) (b : Bookmark) : Bool :=
  strIncludes b.title.toLower query ||
  strIncludes b.url.toLower query ||
  (match b.description with
   | some d => strIncludes d.toLower query
   | none => false)

/-- Whether one bookmark survives the selected-hashtag filter. -/
def matchesHashtag (tag : String) (b : Bookmark) : Bool :=
  match b.description with
  | some d => (extractHashtags d).contains tag
  | none => false

/-- Embedding of filteredBookmarks: the search filter applies only when
the trimmed query is non-empty (JS truthiness of searchQuery.trim()), and
the hashtag filter only when a hashtag is selected. -/
def filteredBookmarks (bookmarks : List Bookmark) (searchQuery : String)
    (selectedHashtag : Option String) : List Bookmark :=
  let afterSearch :=
    if jsTrim searchQuery ≠ "" then
      bookmarks.filter (matchesQuery searchQuery.toLower)
    else bookmarks
  match selectedHashtag with
  | some tag => afterSearch.filter (matchesHashtag tag)
  | none => afterSearch

/-! ### refreshNow / fetchBookmarks

Embedding of fetchBookmarks in Dashboard.tsx (lines 196-207): when the
List response is ok, the client collection is replaced wholesale with the
response body; otherwise the collection is untouched and an error toast
is shown. -/

/-- Outcome of the List request as observed by the client. -/
structure FetchResponse where
  ok : Bool
  data : List Bookmark
deriving DecidableEq, Repr

/-- Result of one fetchBookmarks call: the new client collection and
whether an error was surfaced to the presentation layer (the error
toast). -/
def fetchBookmarks (res : FetchResponse) (bookmarks : List Bookmark) :
    List Bookmark × Bool :=
  if res.ok then (res.data, false) else (bookmarks, true)

/-! ### Mutation handlers and their effect traces

Embeddings of handleAdd, handleUpdate and handleDelete in Dashboard.tsx
(lines 392-515). Each handler is modelled as the trace of externally
visible effects it performs on a given path: a success toast, an error
toast, a channel broadcast (only when the webhook channel is open and the
webhook strategy is active - see broadcastUpdate, lines 381-390), and a
full refetch of the list (only when the active strategy is not
webhook). -/

inductive Effect where
  | toastSuccess
  | toastError
  | broadcast (type : String)
  | fetchList
deriving DecidableEq, Repr

/-- Embedding of broadcastUpdate: sends on the channel only if a channel
exists and the webhook strategy is active. -/
def broadcastUpdate (mode : SyncMode) (channelOpen : Bool) (type : String) : List Effect :=
  if channelOpen ∧ mode = SyncMode.webhook then [.broadcast type] else []

/-- Effect trace of handleAdd after the create request resolves with the
given ok flag. -/
def handleAdd (mode : SyncMode) (channelOpen : Bool) (resOk : Bool) : List Effect :=
  if resOk then
    .toastSuccess :: broadcastUpdate mode channelOpen "insert" ++
      (if mode = SyncMode.webhook then [] else [.fetchList])
  else [.toastError]

/-- Effect trace of handleUpdate: an empty trimmed title or url aborts
with only an error toast before any request; otherwise the trace depends
on the response. -/
def handleUpdate (mode : SyncMode) (channelOpen : Bool)
    (editTitle editUrl : String) (resOk : Bool) : List Effect :=
  if jsTrim editTitle = "" ∨ jsTrim editUrl = "" then [.toastError]
  else if resOk then
    .toastSuccess :: broadcastUpdate mode channelOpen "update" ++
      (if mode = SyncMode.webhook then [] else [.fetchList])
  else [.toastError]

/-- Effect trace of handleDelete after the delete request resolves. -/
def handleDelete (mode : SyncMode) (channelOpen : Bool) (resOk : Bool) : List Effect :=
  if resOk then
    .toastSuccess :: broadcastUpdate mode channelOpen "delete" ++
      (if mode = SyncMode.webhook then [] else [.fetchList])
  else [.toastError]

/-! ### Webhook connection status transitions

Embedding of the webhook-mode effect in Dashboard.tsx (lines 257-361):
activation emits "connecting" before the channel is created; the
subscription handshake completes asynchronously with one of the four
realtime subscribe states, and the subscribe callback maps it to a
connection status. -/

inductive ConnStatus where
  | connected
  | disconnected
  | connecting
deriving DecidableEq, Repr

/-- The four possible subscription handshake outcomes reported by the
change feed client library. -/
inductive SubscribeState where
  | subscribed
  | timedOut
  | closed
  | channelError
deriving DecidableEq, Repr

/-- The subscribe callback's mapping from handshake outcome to emitted
connection status (Dashboard.tsx lines 341-361). -/
def statusForSubscribeState : SubscribeState → ConnStatus
  | .subscribed => .connected
  | .channelError => .disconnected
  | .timedOut => .disconnected
  | .closed => .disconnected

/-- The sequence of connection-status values emitted by one activation of
the webhook strategy whose handshake completes with the given outcome:
"connecting" is emitted synchronously at setup start (line 278), then the
callback emits the status for the handshake outcome. -/
def webhookActivationTrace (handshake : SubscribeState) : List ConnStatus :=
  [.connecting, statusForSubscribeState handshake]

/-- The full status history of such an activation, starting from the
initial disconnected status. -/
def statusHistory (handshake : SubscribeState) : List ConnStatus :=
  .disconnected :: webhookActivationTrace handshake

/-! ### CRUD gateway: PATCH and DELETE

Embedding of src/app/api/bookmarks/route.ts. The bookmark store is a
list of rows; the authenticated caller is an optional user id; request
fields deserialised from JSON use the empty string for both a missing
and an empty value, matching JS falsiness of the `!field` checks. -/

structure PatchRequest where
  id : String
  url : String
  title : String
  description : Option String
deriving DecidableEq, Repr

inductive PatchResult where
  | unauthorized
  | badRequest
  | notFound
  | ok (b : Bookmark)
deriving DecidableEq, Repr

/-- The JS expression `description || null`: an absent or empty
description is stored as null. -/
def descOrNull : Option String → Option String
  | none => none
  | some s => if s = "" then none else some s

/-- The row produced by the update statement for a matching row. -/
def applyPatch (req : PatchRequest) (b : Bookmark) : Bookmark :=
  { b with url := req.url, title := req.title, description := descOrNull req.description }

/-- Whether a row is hit by the update's two eq filters. -/
def patchHits (req : PatchRequest) (uid : String) (b : Bookmark) : Bool :=
  b.id = req.id ∧ b.user_id = uid

/-- Embedding of the PATCH handler (route.ts lines 65-132): reject
unauthenticated callers; reject if id, url or title is missing/empty;
run the update restricted to rows with the request id owned by the
caller; report not-found when zero rows were updated, else return the
first updated row. -/
def patchBookmark (db : List Bookmark) (user : Option String) (req : PatchRequest) :
    List Bookmark × PatchResult :=
  match user with
  | none => (db, .unauthorized)
  | some uid =>
    if req.id = "" ∨ req.url = "" ∨ req.title = "" then (db, .badRequest)
    else
      match db.filter (patchHits req uid) with
      | [] => (db.map (fun b => if patchHits req uid b then applyPatch req b else b),
          .notFound)
      | b :: _ => (db.map (fun b => if patchHits req uid b then applyPatch req b else b),
          .ok (applyPatch req b))

inductive DeleteResult where
  | unauthorized
  | badRequest
  | ok
deriving DecidableEq, Repr

/-- Embedding of the DELETE handler (route.ts lines 134-165): reject
unauthenticated callers; reject a missing id; otherwise delete the rows
with that id owned by the caller and acknowledge success, whether or not
any row matched. -/
def deleteBookmark (db : List Bookmark) (user : Option String) (id : String) :
    List Bookmark × DeleteResult :=
  match user with
  | none => (db, .unauthorized)
  | some uid =>
    if id = "" then (db, .badRequest)
    else (db.filter (fun b => ¬(b.id = id ∧ b.user_id = uid)), .ok)

/-! ### Live-window mirror toggle

Embedding of toggleLive in Header.tsx (lines 73-95). The shared state
visible across browsing contexts: the localStorage live flag and whether
the named mirror window exists. window.open targets the fixed window
name "bookmarkLiveWindow", so a second open while the mirror exists
reuses that browsing context instead of creating a new one; contexts
counts the distinct mirror browsing contexts ever created. The caller's
React liveActive state is passed in as the value the handler observes
(it may be stale while a previous call's state update has not yet been
applied). -/

structure MirrorState where
  flag : Bool
  mirrorOpen : Bool
  contexts : Nat
deriving DecidableEq, Repr

/-- One toggleLive call: a no-op when the observed liveActive is true;
otherwise open the named mirror window (creating a context only if none
exists under that name), set the shared flag and the local state on
success, and leave everything untouched when the popup is blocked. -/
def toggleLive (observedLiveActive popupAllowed : Bool) (s : MirrorState) : MirrorState :=
  if observedLiveActive then s
  else if popupAllowed then
    { flag := true
      mirrorOpen := true
      contexts := if s.mirrorOpen then s.contexts else s.contexts + 1 }
  else s

/-- The state before any mirror exists. -/
def mirrorInitial : MirrorState := { flag := false, mirrorOpen := false, contexts := 0 }

/-- Helper: whether a PATCH result is a rejection. -/
def PatchResult.isReject : PatchResult → Bool
  | .ok _ => false
  | _ => true

/-! ## Claim theorems -/

/-- C1: for every sequence of insert, update and delete events delivered
through the push-subscription handler to a client collection with no
duplicate ids, the resulting collection has no duplicate ids; reapplying
the last event leaves it unchanged (idempotence of the merge); after an
update event every entry carrying the updated id is the updated row; and
after a delete event no entry carries the deleted id. -/
theorem c1_realtime_merge_invariant (es : List RealtimeEvent) (s : List Bookmark)
    (h : (collectionIds s).Nodup) :
    (collectionIds (applyRealtimeEvents es s)).Nodup ∧
    (∀ e, applyRealtimeEvents (es ++ [e, e]) s = applyRealtimeEvents (es ++ [e]) s) ∧
    (∀ ub, ∀ b ∈ applyRealtimeEvents (es ++ [.update ub]) s, b.id = ub.id → b = ub) ∧
    (∀ i, ∀ b ∈ applyRealtimeEvents (es ++ [.delete i]) s, b.id ≠ i) := by
  have happ : ∀ (l : List RealtimeEvent),
      applyRealtimeEvents (es ++ l) s = applyRealtimeEvents l (applyRealtimeEvents es s) := by
    intro l
    simp [applyRealtimeEvents, List.foldl_append]
  refine ⟨collectionIds_applyRealtimeEvents_nodup es s h, ?_, ?_, ?_⟩
  · intro e
    rw [happ [e, e], happ [e]]
    simp only [applyRealtimeEvents, List.foldl_cons, List.foldl_nil]
    exact applyRealtimeEvent_idem e _
  · intro ub b hb
    rw [happ [.update ub]] at hb
    simp only [applyRealtimeEvents, List.foldl_cons, List.foldl_nil] at hb
    exact applyRealtimeEvent_update_eq ub _ b hb
  · intro i b hb
    rw [happ [.delete i]] at hb
    simp only [applyRealtimeEvents, List.foldl_cons, List.foldl_nil] at hb
    exact applyRealtimeEvent_delete_not_mem i _ b hb

/-- Witness for C1 at a concrete two-element collection and a concrete
insert/update/delete event sequence. -/
theorem c1_realtime_merge_invariant_witness :
    (collectionIds [⟨"1", "https://a", "A", none, "t1", "u"⟩,
        ⟨"2", "https://b", "B", none, "t0", "u"⟩]).Nodup ∧
    ((collectionIds (applyRealtimeEvents
        [.insert ⟨"3", "https://c", "C", none, "t2", "u"⟩,
         .update ⟨"2", "https://b2", "B2", none, "t0", "u"⟩,
         .delete "1"]
        [⟨"1", "https://a", "A", none, "t1", "u"⟩,
         ⟨"2", "https://b", "B", none, "t0", "u"⟩])).Nodup ∧
      (∀ e, applyRealtimeEvents
          ([.insert ⟨"3", "https://c", "C", none, "t2", "u"⟩,
            .update ⟨"2", "https://b2", "B2", none, "t0", "u"⟩,
            .delete "1"] ++ [e, e])
          [⟨"1", "https://a", "A", none, "t1", "u"⟩,
           ⟨"2", "https://b", "B", none, "t0", "u"⟩] =
        applyRealtimeEvents
          ([.insert ⟨"3", "https://c", "C", none, "t2", "u"⟩,
            .update ⟨"2", "https://b2", "B2", none, "t0", "u"⟩,
            .delete "1"] ++ [e])
          [⟨"1", "https://a", "A", none, "t1", "u"⟩,
           ⟨"2", "https://b", "B", none, "t0", "u"⟩]) ∧
      (∀ ub, ∀ b ∈ applyRealtimeEvents
          ([.insert ⟨"3", "https://c", "C", none, "t2", "u"⟩,
            .update ⟨"2", "https://b2", "B2", none, "t0", "u"⟩,
            .delete "1"] ++ [.update ub])
          [⟨"1", "https://a", "A", none, "t1", "u"⟩,
           ⟨"2", "https://b", "B", none, "t0", "u"⟩], b.id = ub.id → b = ub) ∧
      (∀ i, ∀ b ∈ applyRealtimeEvents
          ([.insert ⟨"3", "https://c", "C", none, "t2", "u"⟩,
            .update ⟨"2", "https://b2", "B2", none, "t0", "u"⟩,
            .delete "1"] ++ [.delete i])
          [⟨"1", "https://a", "A", none, "t1", "u"⟩,
           ⟨"2", "https://b", "B", none, "t0", "u"⟩], b.id ≠ i)) :=
  ⟨by decide, c1_realtime_merge_invariant _ _ (by decide)⟩

/-- C2 counterexample: a successful create performed through handleAdd
while the webhook strategy is active performs no full refresh of the
client collection, refuting the claim that the refresh happens regardless
of which sync strategy is active. -/
theorem c2_webhook_no_refresh_counterexample :
    Effect.fetchList ∉ handleAdd SyncMode.webhook true true := by
  decide

/-- C2 amended: a successful create, update or delete through a mutation
handler triggers a full refresh exactly when the active sync strategy is
not webhook; in webhook mode no handler refreshes (reconciliation is left
to the push subscription). -/
theorem c2_mutation_refresh_amended (mode : SyncMode) (channelOpen : Bool)
    (title url : String) (hmode : mode ≠ SyncMode.webhook)
    (ht : ¬jsTrim title = "") (hu : ¬jsTrim url = "") :
    Effect.fetchList ∈ handleAdd mode channelOpen true ∧
    Effect.fetchList ∈ handleUpdate mode channelOpen title url true ∧
    Effect.fetchList ∈ handleDelete mode channelOpen true ∧
    Effect.fetchList ∉ handleAdd SyncMode.webhook channelOpen true ∧
    Effect.fetchList ∉ handleUpdate SyncMode.webhook channelOpen title url true ∧
    Effect.fetchList ∉ handleDelete SyncMode.webhook channelOpen true := by
  refine ⟨?_, ?_, ?_, ?_, ?_, ?_⟩ <;>
    cases channelOpen <;>
      simp [handleAdd, handleUpdate, handleDelete, broadcastUpdate, hmode, ht, hu]

/-- Witness for C2's amended theorem in normal mode with non-blank edit
fields. -/
theorem c2_mutation_refresh_amended_witness :
    SyncMode.normal ≠ SyncMode.webhook ∧ ¬(jsTrim "Example" = "") ∧
    ¬(jsTrim "https://example.com" = "") ∧
    (Effect.fetchList ∈ handleAdd SyncMode.normal false true ∧
     Effect.fetchList ∈ handleUpdate SyncMode.normal false "Example" "https://example.com" true ∧
     Effect.fetchList ∈ handleDelete SyncMode.normal false true ∧
     Effect.fetchList ∉ handleAdd SyncMode.webhook false true ∧
     Effect.fetchList ∉ handleUpdate SyncMode.webhook false "Example" "https://example.com" true ∧
     Effect.fetchList ∉ handleDelete SyncMode.webhook false true) :=
  ⟨by decide, by decide, by decide,
    c2_mutation_refresh_amended SyncMode.normal false "Example" "https://example.com"
      (by decide) (by decide) (by decide)⟩

/-- C3: a fetchBookmarks call whose List request succeeds leaves the
client collection equal to exactly the sequence returned by the List
operation, preserving no client-only entries, and surfaces no error. -/
theorem c3_refresh_replaces_collection (res : FetchResponse) (s : List Bookmark)
    (h : res.ok = true) : fetchBookmarks res s = (res.data, false) := by
  simp [fetchBookmarks, h]

/-- Witness for C3 on a concrete successful response replacing a
non-empty client collection, dropping a client-only entry. -/
theorem c3_refresh_replaces_collection_witness :
    (FetchResponse.mk true [⟨"2", "https://b", "B", none, "t0", "u"⟩]).ok = true ∧
    fetchBookmarks (FetchResponse.mk true [⟨"2", "https://b", "B", none, "t0", "u"⟩])
        [⟨"local", "https://l", "L", none, "t9", "u"⟩] =
      ([⟨"2", "https://b", "B", none, "t0", "u"⟩], false) :=
  ⟨by decide, c3_refresh_replaces_collection _ _ (by decide)⟩

/-- C4: a fetchBookmarks call whose List request fails leaves the client
collection exactly as it was and surfaces an error to the presentation
layer. -/
theorem c4_failed_refresh_preserves_collection (res : FetchResponse) (s : List Bookmark)
    (h : res.ok = false) : fetchBookmarks res s = (s, true) := by
  simp [fetchBookmarks, h]

/-- Witness for C4 on a concrete failed response. -/
theorem c4_failed_refresh_preserves_collection_witness :
    (FetchResponse.mk false []).ok = false ∧
    fetchBookmarks (FetchResponse.mk false [])
        [⟨"1", "https://a", "A", none, "t1", "u"⟩] =
      ([⟨"1", "https://a", "A", none, "t1", "u"⟩], true) :=
  ⟨by decide, c4_failed_refresh_preserves_collection _ _ (by decide)⟩

/-- C5: an activation of the webhook strategy starting from disconnected
emits connecting first, then connected exactly on handshake success and
disconnected on failure, timeout or closure; the status history never
steps from disconnected directly to connected. -/
theorem c5_status_transitions (hs : SubscribeState) :
    statusHistory hs = [ConnStatus.disconnected, ConnStatus.connecting,
      if hs = SubscribeState.subscribed then ConnStatus.connected else ConnStatus.disconnected] ∧
    (webhookActivationTrace hs).head? = some ConnStatus.connecting ∧
    List.Chain' (fun a b => ¬(a = ConnStatus.disconnected ∧ b = ConnStatus.connected))
      (statusHistory hs) := by
  cases hs <;>
    refine ⟨by simp [statusHistory, webhookActivationTrace, statusForSubscribeState], rfl, ?_⟩ <;>
      simp [statusHistory, webhookActivationTrace, statusForSubscribeState,
        List.chain'_cons, List.chain'_singleton]

/-- C6: a PATCH request from an authenticated caller is rejected exactly
when the id is missing, the url or title is empty, or no bookmark with
that id is owned by the caller; rejection leaves the store unmutated, and
otherwise the operation succeeds returning the updated bookmark. -/
theorem c6_update_validation (db : List Bookmark) (uid : String) (req : PatchRequest) :
    ((patchBookmark db (some uid) req).2.isReject = true ↔
      (req.id = "" ∨ req.url = "" ∨ req.title = "" ∨
        ∀ b ∈ db, ¬(b.id = req.id ∧ b.user_id = uid))) ∧
    ((patchBookmark db (some uid) req).2.isReject = true →
      (patchBookmark db (some uid) req).1 = db) ∧
    ((patchBookmark db (some uid) req).2.isReject = false →
      ∃ b ∈ db, b.id = req.id ∧ b.user_id = uid ∧
        (patchBookmark db (some uid) req).2 = PatchResult.ok (applyPatch req b) ∧
        (patchBookmark db (some uid) req).1 =
          db.map (fun x => if patchHits req uid x then applyPatch req x else x)) := by
  by_cases hval : req.id = "" ∨ req.url = "" ∨ req.title = ""
  · have hres : patchBookmark db (some uid) req = (db, .badRequest) := by
      simp [patchBookmark, hval]
    rw [hres]
    refine ⟨⟨fun _ => ?_, fun _ => rfl⟩, fun _ => rfl, fun hcontra => ?_⟩
    · rcases hval with h | h | h
      · exact Or.inl h
      · exact Or.inr (Or.inl h)
      · exact Or.inr (Or.inr (Or.inl h))
    · exact absurd hcontra (by simp [PatchResult.isReject])
  · have h3 := hval
    push_neg at h3
    obtain ⟨hid, hurl, htitle⟩ := h3
    rcases hfil : db.filter (patchHits req uid) with _ | ⟨b, tl⟩
    · have hres : patchBookmark db (some uid) req =
          (db.map (fun x => if patchHits req uid x then applyPatch req x else x),
            .notFound) := by
        simp [patchBookmark, hval, hfil]
      have hnone : ∀ x ∈ db, ¬(x.id = req.id ∧ x.user_id = uid) := by
        intro x hx hhit
        have hhitb : patchHits req uid x = true := by
          simp [patchHits, hhit.1, hhit.2]
        have hmem := List.mem_filter.mpr ⟨hx, hhitb⟩
        rw [hfil] at hmem
        exact absurd hmem (List.not_mem_nil x)
      have hunch : db.map (fun x => if patchHits req uid x then applyPatch req x else x)
          = db := by
        have : db.map (fun x => if patchHits req uid x then applyPatch req x else x)
            = db.map id := by
          refine List.map_congr_left ?_
          intro x hx
          have hmiss : patchHits req uid x = false := by
            rcases Bool.eq_false_or_eq_true (patchHits req uid x) with h | h
            · exfalso
              simp only [patchHits, decide_eq_true_eq] at h
              exact hnone x hx h
            · exact h
          simp [hmiss]
        rw [this, List.map_id]
      rw [hres]
      refine ⟨⟨fun _ => Or.inr (Or.inr (Or.inr hnone)), fun _ => rfl⟩,
        fun _ => hunch, fun hcontra => ?_⟩
      exact absurd hcontra (by simp [PatchResult.isReject])
    · have hres : patchBookmark db (some uid) req =
          (db.map (fun x => if patchHits req uid x then applyPatch req x else x),
            .ok (applyPatch req b)) := by
        simp [patchBookmark, hval, hfil]
      have hbmem : b ∈ db.filter (patchHits req uid) := by
        rw [hfil]; exact List.mem_cons_self b tl
      have hb := List.mem_filter.mp hbmem
      have hhit : b.id = req.id ∧ b.user_id = uid := by
        have := hb.2
        simpa [patchHits] using this
      rw [hres]
      refine ⟨⟨fun hcontra => ?_, fun hrhs => ?_⟩, fun hcontra => ?_, fun _ => ?_⟩
      · exact absurd hcontra (by simp [PatchResult.isReject])
      · exfalso
        rcases hrhs with h | h | h | h
        · exact hid h
        · exact hurl h
        · exact htitle h
        · exact h b hb.1 hhit
      · exact absurd hcontra (by simp [PatchResult.isReject])
      · exact ⟨b, hb.1, hhit.1, hhit.2, rfl, rfl⟩

/-- Witness for C6 at a concrete one-row store and a valid owned update
request. -/
theorem c6_update_validation_witness :
    ((patchBookmark [⟨"1", "https://a", "A", none, "t1", "u"⟩] (some "u")
        ⟨"1", "https://a2", "A2", some "d"⟩).2.isReject = true ↔
      (("1" : String) = "" ∨ ("https://a2" : String) = "" ∨ ("A2" : String) = "" ∨
        ∀ b ∈ [(⟨"1", "https://a", "A", none, "t1", "u"⟩ : Bookmark)],
          ¬(b.id = "1" ∧ b.user_id = "u"))) ∧
    ((patchBookmark [⟨"1", "https://a", "A", none, "t1", "u"⟩] (some "u")
        ⟨"1", "https://a2", "A2", some "d"⟩).2.isReject = true →
      (patchBookmark [⟨"1", "https://a", "A", none, "t1", "u"⟩] (some "u")
        ⟨"1", "https://a2", "A2", some "d"⟩).1 = [⟨"1", "https://a", "A", none, "t1", "u"⟩]) ∧
    ((patchBookmark [⟨"1", "https://a", "A", none, "t1", "u"⟩] (some "u")
        ⟨"1", "https://a2", "A2", some "d"⟩).2.isReject = false →
      ∃ b ∈ [(⟨"1", "https://a", "A", none, "t1", "u"⟩ : Bookmark)],
        b.id = "1" ∧ b.user_id = "u" ∧
        (patchBookmark [⟨"1", "https://a", "A", none, "t1", "u"⟩] (some "u")
          ⟨"1", "https://a2", "A2", some "d"⟩).2 =
            PatchResult.ok (applyPatch ⟨"1", "https://a2", "A2", some "d"⟩ b) ∧
        (patchBookmark [⟨"1", "https://a", "A", none, "t1", "u"⟩] (some "u")
          ⟨"1", "https://a2", "A2", some "d"⟩).1 =
          [(⟨"1", "https://a", "A", none, "t1", "u"⟩ : Bookmark)].map
            (fun x => if patchHits ⟨"1", "https://a2", "A2", some "d"⟩ "u" x
              then applyPatch ⟨"1", "https://a2", "A2", some "d"⟩ x else x)) :=
  c6_update_validation [⟨"1", "https://a", "A", none, "t1", "u"⟩] "u"
    ⟨"1", "https://a2", "A2", some "d"⟩

/-- C7: two openMirror (toggleLive) calls in succession, the second
issued before or after the first completes, create at most one mirror
browsing context and leave the shared live flag true; a call observing
the flag already true is a no-op. -/
theorem c7_mirror_single_context (observed2 : Bool) :
    (toggleLive observed2 true (toggleLive false true mirrorInitial)).contexts ≤ 1 ∧
    (toggleLive observed2 true (toggleLive false true mirrorInitial)).flag = true ∧
    (∀ p s, toggleLive true p s = s) := by
  refine ⟨?_, ?_, fun p s => rfl⟩ <;> cases observed2 <;> decide

/-- C8: hashtag extraction on the scenario description yields exactly
"#tutorial" then "#golang", and in general the extracted list has no
duplicates and is a subsequence of the raw regex match list, so each
token appears at most once in order of first occurrence. -/
theorem c8_hashtag_extraction :
    extractHashtags "Great read #tutorial #golang" = ["#tutorial", "#golang"] ∧
    (∀ t : String, (extractHashtags t).Nodup) ∧
    (∀ t : String, List.Sublist (extractHashtags t) (scanHashtags t.data)) :=
  ⟨by decide, extractHashtags_nodup, extractHashtags_sublist_matches⟩

/-- C9: a DELETE request from an authenticated caller with a non-missing
id is acknowledged as success, in particular also when no stored bookmark
with that id is owned by the caller (zero rows deleted is not an
error). -/
theorem c9_delete_zero_rows_ok (db : List Bookmark) (uid id : String)
    (hid : ¬id = "") : (deleteBookmark db (some uid) id).2 = DeleteResult.ok := by
  simp [deleteBookmark, hid]

/-- Witness for C9 on a store containing no bookmark with the requested
id. -/
theorem c9_delete_zero_rows_ok_witness :
    ¬("missing" : String) = "" ∧
    (deleteBookmark [⟨"1", "https://a", "A", none, "t1", "u"⟩] (some "u") "missing").2 =
      DeleteResult.ok :=
  ⟨by decide, c9_delete_zero_rows_ok _ "u" "missing" (by decide)⟩

/-- C10: for every client collection, search query and selected hashtag,
filteredBookmarks returns a subsequence of the collection: every returned
bookmark is an element of the collection and relative order is preserved
(and the collection itself is not modified, the function being pure on
its input). -/
theorem c10_filter_subsequence (bookmarks : List Bookmark) (searchQuery : String)
    (selectedHashtag : Option String) :
    List.Sublist (filteredBookmarks bookmarks searchQuery selectedHashtag) bookmarks := by
  unfold filteredBookmarks
  have hsearch : List.Sublist
      (if jsTrim searchQuery ≠ "" then
        bookmarks.filter (matchesQuery searchQuery.toLower)
      else bookmarks) bookmarks := by
    by_cases h : jsTrim searchQuery ≠ ""
    · rw [if_pos h]; exact List.filter_sublist bookmarks
    · rw [if_neg h]
  cases selectedHashtag with
  | none => exact hsearch
  | some tag => exact (List.filter_sublist _).trans hsearch

end SmartBookmark
